import Mathlib

/-!
Verification of the sampling and cost-analysis engine of a serverless
benchmarking tool.  The definitions below are shallow embeddings of
the cost analyzer, the per-tier sample collector and the performance
insights generator; JavaScript numbers are modelled as exact rationals,
nullable values as `Option`, thrown exceptions as `Except.error`, and
the collection loop as a fuel-indexed recursion where `none` marks
divergence of the source loop.
-/

namespace LambdaBench

/-- Per-class timing statistics (`TestExecutionResult` in the type declarations). -/
structure TestExecutionResult where
  count : Nat
  average : Rat
  min : Rat
  max : Rat
deriving DecidableEq

/-- Per-tier aggregated result (`FunctionTestResult`): the two stats fields are
null when no sample of that class was collected. -/
structure FunctionTestResult where
  memoryMB : Rat
  coldStart : Option TestExecutionResult
  warmStart : Option TestExecutionResult
deriving DecidableEq

/-- The pricing slice of `TestConfig` read by the cost analyzer. -/
structure TestConfig where
  lambdaPricePerGbSecond : Rat
  costCalculationScale : Rat
  defaultColdStartPercentage : Rat
deriving DecidableEq

/-- One row of the cost analysis (`CostAnalysisConfig`). -/
structure CostAnalysisConfig where
  memoryMB : Rat
  avgExecutionTime : Rat
  coldStartTime : Option Rat
  costPer1MInvocations : Rat
  coldStartCostPer1M : Rat
  blendedCostPer1M : Rat
  costEfficiencyScore : Rat
deriving DecidableEq

/-- Output of `analyzeCostEfficiency` (`CostAnalyzerOutput`). -/
structure CostAnalyzerOutput where
  mostCostEfficient : CostAnalysisConfig
  leastCostEfficient : CostAnalysisConfig
  allConfigurations : List CostAnalysisConfig
deriving DecidableEq

/-- The selected tier (`OptimalMemoryConfig`). -/
structure OptimalMemoryConfig where
  memoryMB : Rat
  warmStartAvg : Rat
  coldStartAvg : Option Rat
  blendedCost : Rat
  recommendation : String
deriving DecidableEq

/-- JavaScript `Array.prototype.reduce` without an initial value: the
accumulator starts at the first element; on an empty array it throws, modelled
as `none`. -/
def reduce1 {α : Type} (f : α → α → α) : List α → Option α
  | [] => none
  | x :: xs => some (xs.foldl f x)

/-- The message of the `TypeError` thrown by `reduce` on an empty array. -/
def jsReduceEmptyError : String := "TypeError: Reduce of empty array with no initial value"

/-- JavaScript division that keeps only finite results: `a / b` is a finite
number exactly when `b` is nonzero; division by zero yields Infinity or NaN,
modelled as `none`. -/
def jsDivFinite (a b : Rat) : Option Rat := if b = 0 then none else some (a / b)

/-- The reduce callback `(best, current) => score(current) > score(best) ? current : best`. -/
def pickMaxBy {α : Type} (score : α → Rat) (best current : α) : α :=
  if score current > score best then current else best

/-- The reduce callback `(best, current) => score(current) < score(best) ? current : best`. -/
def pickMinBy {α : Type} (score : α → Rat) (best current : α) : α :=
  if score current < score best then current else best

/-- The body of the `forEach` in `analyzeCostEfficiency` (cost-analyzer.ts
lines 82-115), run for a tier whose `warmStart` is non-null: warm cost from
memory in GB times execution time in seconds, cold cost and the blended mix
only when cold data is present with positive average, otherwise the all-warm
fallback.  The `costEfficiencyScore` division by a zero blended cost yields 0
in `Rat` where JavaScript yields Infinity; that unguarded division is analysed
separately through `costEfficiencyScoreJs`. -/
def costEntry (config : TestConfig) (memoryMB : Rat) (warmStart : TestExecutionResult)
    (coldStart : Option TestExecutionResult) : CostAnalysisConfig :=
  let memoryGB := memoryMB / 1024
  let executionTimeSeconds := warmStart.average / 1000
  let warmGbSeconds := memoryGB * executionTimeSeconds
  let warmCostPer1MInvocations :=
    warmGbSeconds * config.lambdaPricePerGbSecond * config.costCalculationScale
  let coldData : Rat × Rat :=
    match coldStart with
    | some cs =>
      if 0 < cs.average then
        let coldExecutionTimeSeconds := cs.average / 1000
        let coldGbSeconds := memoryGB * coldExecutionTimeSeconds
        let coldCostPer1MInvocations :=
          coldGbSeconds * config.lambdaPricePerGbSecond * config.costCalculationScale
        let coldPercentage := config.defaultColdStartPercentage
        let warmPercentage := 1 - coldPercentage
        (coldCostPer1MInvocations,
         coldCostPer1MInvocations * coldPercentage + warmCostPer1MInvocations * warmPercentage)
      else (0, warmCostPer1MInvocations)
    | none => (0, warmCostPer1MInvocations)
  { memoryMB := memoryMB
    avgExecutionTime := warmStart.average
    coldStartTime := coldStart.map TestExecutionResult.average
    costPer1MInvocations := warmCostPer1MInvocations
    coldStartCostPer1M := coldData.1
    blendedCostPer1M := coldData.2
    costEfficiencyScore := config.costCalculationScale / coldData.2 }

/-- Line 114 of the cost analyzer with JavaScript division semantics made
explicit: `scale / blendedCostPer1M` is a finite number exactly when the
blended cost is nonzero. -/
def costEfficiencyScoreJs (config : TestConfig) (memoryMB : Rat)
    (warmStart : TestExecutionResult) (coldStart : Option TestExecutionResult) : Option Rat :=
  jsDivFinite config.costCalculationScale (costEntry config memoryMB warmStart coldStart).blendedCostPer1M

/-- `costAnalysis.sort((a, b) => a.memoryMB - b.memoryMB)`: a stable ascending
sort on `memoryMB`, modelled by stable insertion sort. -/
def sortByMemoryMB (l : List CostAnalysisConfig) : List CostAnalysisConfig :=
  l.insertionSort (fun a b => a.memoryMB ≤ b.memoryMB)

/-- `analyzeCostEfficiency` (cost-analyzer.ts lines 77-129): null on an empty
input, otherwise one cost row per tier with warm data, sorted by memory size;
the most and least cost efficient rows are picked by `reduce` with no initial
value, which throws on an empty row list. -/
def analyzeCostEfficiency (config : TestConfig) (results : List FunctionTestResult) :
    Except String (Option CostAnalyzerOutput) :=
  if results.length = 0 then Except.ok none
  else
    let costAnalysis := results.filterMap fun result =>
      result.warmStart.map fun warmStart =>
        costEntry config result.memoryMB warmStart result.coldStart
    let sorted := sortByMemoryMB costAnalysis
    match reduce1 (pickMaxBy (fun c => c.costEfficiencyScore)) sorted,
          reduce1 (pickMinBy (fun c => c.costEfficiencyScore)) sorted with
    | some most, some least =>
      Except.ok (some { mostCostEfficient := most
                        leastCostEfficient := least
                        allConfigurations := sorted })
    | _, _ => Except.error jsReduceEmptyError

/-- The eligibility test and scoring of one tier inside the `forEach` of
`findOptimalMemoryConfig` (cost-analyzer.ts lines 36-69): a tier is scored only
when its warm stats are non-null and a cost row with its memory size is found;
the score is 50 percent performance, 30 percent normalized cost efficiency and
20 percent cold start bonus. -/
def eligScore (allConfigurations : List CostAnalysisConfig)
    (result : FunctionTestResult) : Option (OptimalMemoryConfig × Rat) :=
  match result.warmStart with
  | none => none
  | some warmStart =>
    match allConfigurations.find? (fun c => c.memoryMB == result.memoryMB) with
    | none => none
    | some costData =>
      let performanceScore := 1000 / warmStart.average
      let costEfficiencyScore := costData.costEfficiencyScore / 10000
      let coldStartBonus : Rat :=
        match result.coldStart with
        | some coldStart => 1000 / coldStart.average
        | none => 0
      let totalScore := performanceScore * 0.5 + costEfficiencyScore * 0.3 + coldStartBonus * 0.2
      some ({ memoryMB := result.memoryMB
              warmStartAvg := warmStart.average
              coldStartAvg := result.coldStart.map TestExecutionResult.average
              blendedCost := costData.blendedCostPer1M
              recommendation := "Balanced performance and cost efficiency" }, totalScore)

/-- One step of the best-config accumulator of `findOptimalMemoryConfig`: the
candidate replaces the accumulator only on a strictly greater total score. -/
def selectStep (allConfigurations : List CostAnalysisConfig)
    (acc : Option OptimalMemoryConfig × Rat) (result : FunctionTestResult) :
    Option OptimalMemoryConfig × Rat :=
  match eligScore allConfigurations result with
  | none => acc
  | some (candidate, totalScore) =>
    if totalScore > acc.2 then (some candidate, totalScore) else acc

/-- `findOptimalMemoryConfig` (cost-analyzer.ts lines 26-72): null on empty
input or null cost analysis, otherwise the fold of `selectStep` starting from
no config and best score 0. -/
def findOptimalMemoryConfig (config : TestConfig) (results : List FunctionTestResult) :
    Except String (Option OptimalMemoryConfig) :=
  if results.length = 0 then Except.ok none
  else
    match analyzeCostEfficiency config results with
    | Except.error e => Except.error e
    | Except.ok none => Except.ok none
    | Except.ok (some costAnalysis) =>
      Except.ok (results.foldl (selectStep costAnalysis.allConfigurations) (none, 0)).1

/-- The rank lookup of `determineBestUseCase`: `findIndex` returns the index of
the first row with the given memory size, or -1 when absent. -/
def costRankOf (allConfigs : List CostAnalysisConfig) (config : CostAnalysisConfig) : Int :=
  match allConfigs.findIdx? (fun c => c.memoryMB == config.memoryMB) with
  | some i => i
  | none => -1

/-- `determineBestUseCase` (cost-analyzer.ts lines 134-164): the three global
optima are matched by memory size, otherwise the tier is labelled by the
position of its rank among thirds of the row list.  The two `reduce` calls
throw on an empty row list, modelled as `none`. -/
def determineBestUseCase (config : CostAnalysisConfig) (costAnalysis : CostAnalyzerOutput) :
    Option String :=
  let allConfigs := costAnalysis.allConfigurations
  match reduce1 (pickMinBy (fun c => c.costPer1MInvocations)) allConfigs,
        reduce1 (pickMinBy (fun c => c.avgExecutionTime)) allConfigs with
  | some warmOptimal, some perfOptimal =>
    let mostCostEfficient := costAnalysis.mostCostEfficient
    if config.memoryMB = warmOptimal.memoryMB then some ("High frequency (best warm cost)")
    else if config.memoryMB = perfOptimal.memoryMB then some ("Cold start sensitive (fastest)")
    else if config.memoryMB = mostCostEfficient.memoryMB then some ("Most cost efficient (blended)")
    else
      let costRank := costRankOf allConfigs config
      let totalConfigs := allConfigs.length
      if (costRank : Rat) < (totalConfigs : Rat) / 3 then some ("Budget focused")
      else if (costRank : Rat) > (totalConfigs : Rat) * 2 / 3 then some ("Performance focused")
      else some ("Balanced workload")
  | _, _ => none

/-- An emitted insight, carrying the full-precision quantities that the source
interpolates into its message strings; rounding with `toFixed(1)` is a
presentation concern outside this model. -/
inductive Insight where
  | perfTradeoff (functionType : String) (fastMemoryMB baseMemoryMB perfImprovement costIncrease : Rat)
  | costSaving (functionType : String) (memoryMB : Rat) (savings : Rat)
deriving DecidableEq

/-- The first-fastest row, `allConfigurations.reduce` on `avgExecutionTime`
starting from the baseline row. -/
def fastestConfig (baseline : CostAnalysisConfig) (rest : List CostAnalysisConfig) :
    CostAnalysisConfig :=
  rest.foldl (pickMinBy (fun c => c.avgExecutionTime)) baseline

/-- `addFunctionInsights` of the performance insights analyzer (lines 57-77):
the baseline is the first row of `allConfigurations` (reading a property of
`undefined` throws on an empty row list, modelled as `none`); a trade-off
insight is pushed when the fastest row differs from the baseline in memory
size, and a savings insight when the most cost efficient row differs from the
baseline and the relative blended saving is strictly positive. -/
def addFunctionInsights (insights : List Insight) (costAnalysis : CostAnalyzerOutput)
    (functionType : String) : Option (List Insight) :=
  match costAnalysis.allConfigurations with
  | [] => none
  | baseline :: rest =>
    let fastest := fastestConfig baseline rest
    let mostCostEfficient := costAnalysis.mostCostEfficient
    let insights1 :=
      if fastest.memoryMB ≠ baseline.memoryMB then
        let perfImprovement :=
          (baseline.avgExecutionTime - fastest.avgExecutionTime) / baseline.avgExecutionTime * 100
        let costIncrease :=
          (fastest.blendedCostPer1M - baseline.blendedCostPer1M) / baseline.blendedCostPer1M * 100
        insights ++ [Insight.perfTradeoff functionType fastest.memoryMB baseline.memoryMB
          perfImprovement costIncrease]
      else insights
    let insights2 :=
      if mostCostEfficient.memoryMB ≠ baseline.memoryMB then
        let costSavings :=
          (baseline.blendedCostPer1M - mostCostEfficient.blendedCostPer1M) /
            baseline.blendedCostPer1M * 100
        if costSavings > 0 then
          insights1 ++ [Insight.costSaving functionType mostCostEfficient.memoryMB costSavings]
        else insights1
      else insights1
    some insights2

/-- The expected JSON envelope of one endpoint response: the performance block. -/
structure PerformanceData where
  totalExecutionTime : Rat
deriving DecidableEq

/-- The expected JSON envelope of one endpoint response: the environment block. -/
structure ExecutionEnvironmentData where
  coldStart : Bool
  memoryLimit : Rat
  requestId : String
deriving DecidableEq

/-- A parsed endpoint response (`LambdaFunctionResponse`); either block may be
missing, in which case the response is logged as an error and not sampled. -/
structure LambdaFunctionResponse where
  performance : Option PerformanceData
  executionEnvironment : Option ExecutionEnvironmentData
deriving DecidableEq

/-- One stored sample (`TestRequestResult`).  The wall-clock `timestamp` and
the logging counter `requestNumber` of the source record are omitted: they are
real-time and console concerns never read by the analysis. -/
structure TestRequestResult where
  duration : Rat
  memoryMB : Rat
  requestId : String
  isColdStart : Bool
deriving DecidableEq

/-- The slice of `LambdaTestConfig` that drives the collection loop.  The
delays (`requestDelay`, `warmupDelay`) only pause between batches and are
omitted from this timing-free model. -/
structure LambdaTestConfig where
  targetColdStarts : Nat
  targetWarmStarts : Nat
  maxConcurrentRequests : Nat
  maxRequests : Nat
deriving DecidableEq

/-- The mutable state of one run of `testFunction`. -/
structure CollectState where
  coldStartResults : List TestRequestResult
  warmStartResults : List TestRequestResult
  totalRequestsAttempted : Nat
deriving DecidableEq

/-- Processing of one response inside the batch `forEach` (lambda-test-executor
lines 96-125): a response missing either block is logged and discarded; a valid
response is appended to the list of its class only while that list is below its
target, otherwise it is logged as discarded and both lists are unchanged. -/
def processResponse (cfg : LambdaTestConfig)
    (acc : List TestRequestResult × List TestRequestResult)
    (response : LambdaFunctionResponse) : List TestRequestResult × List TestRequestResult :=
  match response.performance, response.executionEnvironment with
  | some performance, some executionEnvironment =>
    let isColdStart := executionEnvironment.coldStart
    let result : TestRequestResult :=
      { duration := performance.totalExecutionTime
        memoryMB := executionEnvironment.memoryLimit
        requestId := executionEnvironment.requestId
        isColdStart := executionEnvironment.coldStart }
    if isColdStart = true ∧ acc.1.length < cfg.targetColdStarts then
      (acc.1 ++ [result], acc.2)
    else if isColdStart = false ∧ acc.2.length < cfg.targetWarmStarts then
      (acc.1, acc.2 ++ [result])
    else acc
  | _, _ => acc

/-- One iteration body of the while loop of `testFunction` (lines 92-125): the
attempt counter grows by `maxConcurrentRequests` for the batch regardless of
how many responses came back usable, and every response of the batch is
processed in order. -/
def batchStep (cfg : LambdaTestConfig) (responses : List LambdaFunctionResponse)
    (s : CollectState) : CollectState :=
  ⟨(responses.foldl (processResponse cfg) (s.coldStartResults, s.warmStartResults)).1,
   (responses.foldl (processResponse cfg) (s.coldStartResults, s.warmStartResults)).2,
   s.totalRequestsAttempted + cfg.maxConcurrentRequests⟩

/-- The while loop of `testFunction` (lines 82-153).  `batches` is the network
oracle: the list of responses that the batch of concurrent requests at a given
batch number resolves to (`Promise.allSettled` keeps the fulfilled ones, so the
batch itself always resolves).  The `fuel` argument is a modelling device:
`none` marks divergence of the source loop, and the termination theorem below
shows the fuel `maxRequests + 1` is never exhausted when
`maxConcurrentRequests ≥ 1`. -/
def collectLoop (cfg : LambdaTestConfig) (batches : Nat → List LambdaFunctionResponse) :
    Nat → Nat → CollectState → Option CollectState
  | 0, _, _ => none
  | fuel + 1, batchNumber, s =>
    if s.coldStartResults.length < cfg.targetColdStarts ∨
        s.warmStartResults.length < cfg.targetWarmStarts then
      if cfg.targetColdStarts ≤ (batchStep cfg (batches batchNumber) s).coldStartResults.length ∧
          cfg.targetWarmStarts ≤ (batchStep cfg (batches batchNumber) s).warmStartResults.length
        then some (batchStep cfg (batches batchNumber) s)
      else if cfg.maxRequests < (batchStep cfg (batches batchNumber) s).totalRequestsAttempted
        then some (batchStep cfg (batches batchNumber) s)
      else collectLoop cfg batches fuel (batchNumber + 1) (batchStep cfg (batches batchNumber) s)
    else some s

/-- `Math.min` over a spread list of durations; only ever applied to a
non-empty list (the empty case below is unreachable). -/
def jsMinList : List Rat → Rat
  | [] => 0
  | x :: xs => xs.foldl min x

/-- `Math.max` over a spread list of durations; only ever applied to a
non-empty list (the empty case below is unreachable). -/
def jsMaxList : List Rat → Rat
  | [] => 0
  | x :: xs => xs.foldl max x

/-- The statistics reduction at the end of `testFunction` (lines 193-213): an
empty sample list yields null, a non-empty one yields count, mean of the
durations, and their minimum and maximum. -/
def computeStats (results : List TestRequestResult) : Option TestExecutionResult :=
  if results.length > 0 then
    some { count := results.length
           average := (results.foldl (fun sum r => sum + r.duration) 0) / (results.length : Rat)
           min := jsMinList (results.map TestRequestResult.duration)
           max := jsMaxList (results.map TestRequestResult.duration) }
  else none

/-- `testFunction` (lines 63-220): run the collection loop from empty sample
lists and zero attempts, then reduce both classes to stats. -/
def testFunction (memoryMB : Rat) (cfg : LambdaTestConfig)
    (batches : Nat → List LambdaFunctionResponse) : Option FunctionTestResult :=
  (collectLoop cfg batches (cfg.maxRequests + 1) 1 ⟨[], [], 0⟩).map fun s =>
    { memoryMB := memoryMB
      coldStart := computeStats s.coldStartResults
      warmStart := computeStats s.warmStartResults }

instance : IsTotal CostAnalysisConfig (fun a b => a.memoryMB ≤ b.memoryMB) :=
  ⟨fun a b => le_total a.memoryMB b.memoryMB⟩

instance : IsTrans CostAnalysisConfig (fun a b => a.memoryMB ≤ b.memoryMB) :=
  ⟨fun _ _ _ hab hbc => le_trans hab hbc⟩

theorem foldl_choice_mem {α : Type} (f : α → α → α) (h : ∀ a b, f a b = a ∨ f a b = b) :
    ∀ (xs : List α) (a : α), xs.foldl f a ∈ a :: xs := by
  intro xs
  induction xs with
  | nil => intro a; simp
  | cons c cs ih =>
    intro a
    have := ih (f a c)
    rcases h a c with hc | hc <;> rw [hc] at this <;>
      simp only [List.foldl_cons] <;> rw [hc] <;>
      rcases List.mem_cons.mp this with h1 | h1 <;> simp [h1]

theorem foldl_lb {α : Type} (f : α → α → α) (g : α → Rat)
    (h : ∀ a b, g (f a b) ≤ g a ∧ g (f a b) ≤ g b) :
    ∀ (xs : List α) (a : α), ∀ y ∈ a :: xs, g (xs.foldl f a) ≤ g y := by
  intro xs
  induction xs with
  | nil => intro a y hy; simp at hy; simp [hy]
  | cons c cs ih =>
    intro a y hy
    simp only [List.foldl_cons]
    rcases List.mem_cons.mp hy with hy | hy
    · exact le_trans (ih (f a c) (f a c) (List.mem_cons_self _ _)) (hy ▸ (h a c).1)
    · rcases List.mem_cons.mp hy with hy | hy
      · exact le_trans (ih (f a c) (f a c) (List.mem_cons_self _ _)) (hy ▸ (h a c).2)
      · exact ih (f a c) y (List.mem_cons_of_mem _ hy)

theorem foldl_ub {α : Type} (f : α → α → α) (g : α → Rat)
    (h : ∀ a b, g a ≤ g (f a b) ∧ g b ≤ g (f a b)) :
    ∀ (xs : List α) (a : α), ∀ y ∈ a :: xs, g y ≤ g (xs.foldl f a) := by
  intro xs
  induction xs with
  | nil => intro a y hy; simp at hy; simp [hy]
  | cons c cs ih =>
    intro a y hy
    simp only [List.foldl_cons]
    rcases List.mem_cons.mp hy with hy | hy
    · exact le_trans (hy ▸ (h a c).1) (ih (f a c) (f a c) (List.mem_cons_self _ _))
    · rcases List.mem_cons.mp hy with hy | hy
      · exact le_trans (hy ▸ (h a c).2) (ih (f a c) (f a c) (List.mem_cons_self _ _))
      · exact ih (f a c) y (List.mem_cons_of_mem _ hy)

theorem pickMaxBy_choice {α : Type} (score : α → Rat) (a b : α) :
    pickMaxBy score a b = a ∨ pickMaxBy score a b = b := by
  unfold pickMaxBy; split <;> simp

theorem pickMaxBy_ub {α : Type} (score : α → Rat) (a b : α) :
    score a ≤ score (pickMaxBy score a b) ∧ score b ≤ score (pickMaxBy score a b) := by
  unfold pickMaxBy; split <;> rename_i h
  · exact ⟨le_of_lt h, le_refl _⟩
  · exact ⟨le_refl _, le_of_not_lt h⟩

theorem pickMinBy_choice {α : Type} (score : α → Rat) (a b : α) :
    pickMinBy score a b = a ∨ pickMinBy score a b = b := by
  unfold pickMinBy; split <;> simp

theorem pickMinBy_lb {α : Type} (score : α → Rat) (a b : α) :
    score (pickMinBy score a b) ≤ score a ∧ score (pickMinBy score a b) ≤ score b := by
  unfold pickMinBy; split <;> rename_i h
  · exact ⟨le_of_lt h, le_refl _⟩
  · exact ⟨le_refl _, le_of_not_lt h⟩

theorem reduce1_max_spec {α : Type} (score : α → Rat) (l : List α) (x : α)
    (h : reduce1 (pickMaxBy score) l = some x) :
    x ∈ l ∧ ∀ y ∈ l, score y ≤ score x := by
  match l with
  | [] => simp [reduce1] at h
  | a :: xs =>
    simp only [reduce1, Option.some.injEq] at h
    subst h
    exact ⟨foldl_choice_mem _ (pickMaxBy_choice score) xs a,
      foldl_ub _ score (pickMaxBy_ub score) xs a⟩

theorem reduce1_min_spec {α : Type} (score : α → Rat) (l : List α) (x : α)
    (h : reduce1 (pickMinBy score) l = some x) :
    x ∈ l ∧ ∀ y ∈ l, score x ≤ score y := by
  match l with
  | [] => simp [reduce1] at h
  | a :: xs =>
    simp only [reduce1, Option.some.injEq] at h
    subst h
    exact ⟨foldl_choice_mem _ (pickMinBy_choice score) xs a,
      foldl_lb _ score (pickMinBy_lb score) xs a⟩

theorem sortByMemoryMB_sorted (l : List CostAnalysisConfig) :
    List.Sorted (fun a b : CostAnalysisConfig => a.memoryMB ≤ b.memoryMB) (sortByMemoryMB l) :=
  List.sorted_insertionSort _ l

theorem mem_sortByMemoryMB {c : CostAnalysisConfig} {l : List CostAnalysisConfig} :
    c ∈ sortByMemoryMB l ↔ c ∈ l :=
  (List.perm_insertionSort _ l).mem_iff

theorem analyzeCostEfficiency_ok_some {config : TestConfig} {results : List FunctionTestResult}
    {out : CostAnalyzerOutput}
    (h : analyzeCostEfficiency config results = Except.ok (some out)) :
    out.allConfigurations = sortByMemoryMB (results.filterMap fun result =>
      result.warmStart.map fun warmStart =>
        costEntry config result.memoryMB warmStart result.coldStart) ∧
    reduce1 (pickMaxBy (fun c => c.costEfficiencyScore)) out.allConfigurations =
      some out.mostCostEfficient ∧
    reduce1 (pickMinBy (fun c => c.costEfficiencyScore)) out.allConfigurations =
      some out.leastCostEfficient := by
  by_cases hlen : results.length = 0
  · simp [analyzeCostEfficiency, hlen] at h
  · rw [analyzeCostEfficiency, if_neg hlen] at h
    simp only at h
    rcases hmost : reduce1 (pickMaxBy (fun c => c.costEfficiencyScore))
        (sortByMemoryMB (results.filterMap fun result =>
          result.warmStart.map fun warmStart =>
            costEntry config result.memoryMB warmStart result.coldStart)) with _ | most
    · rw [hmost] at h; simp at h
    · rw [hmost] at h
      rcases hleast : reduce1 (pickMinBy (fun c => c.costEfficiencyScore))
          (sortByMemoryMB (results.filterMap fun result =>
            result.warmStart.map fun warmStart =>
              costEntry config result.memoryMB warmStart result.coldStart)) with _ | least
      · rw [hleast] at h; simp at h
      · rw [hleast] at h
        simp only [Except.ok.injEq, Option.some.injEq] at h
        subst h
        exact ⟨rfl, hmost, hleast⟩

theorem jsMinList_spec (l : List Rat) (hl : l ≠ []) :
    jsMinList l ∈ l ∧ ∀ y ∈ l, jsMinList l ≤ y := by
  match l with
  | [] => exact absurd rfl hl
  | x :: xs =>
    refine ⟨foldl_choice_mem min (fun a b => min_choice a b) xs x, ?_⟩
    exact foldl_lb min id (fun a b => ⟨min_le_left a b, min_le_right a b⟩) xs x

theorem jsMaxList_spec (l : List Rat) (hl : l ≠ []) :
    jsMaxList l ∈ l ∧ ∀ y ∈ l, y ≤ jsMaxList l := by
  match l with
  | [] => exact absurd rfl hl
  | x :: xs =>
    refine ⟨foldl_choice_mem max (fun a b => max_choice a b) xs x, ?_⟩
    exact foldl_ub max id (fun a b => ⟨le_max_left a b, le_max_right a b⟩) xs x

/-- Claim C1 (amended): for every tier with warm stats, the cost row of
`analyzeCostEfficiency` has warm cost `(memoryMB/1024) * (warmAvg/1000) *
pricePerGBSecond * scale`; when cold stats with positive average are present
the cold cost follows the same formula and the blended cost is the
cold-fraction mix, otherwise the cold cost is 0 and the blended cost falls
back to the warm cost; every warm tier contributes its row to the returned
configuration list.  In the stated scenario (128 MB, warm 10 ms, price
0.0000166667, scale 1000000) the warm cost is exactly 166667/8000000 ≈
0.020833, not ≈ 0.02035 as claimed. -/
theorem claim_C1_cost_formulas :
    (∀ (config : TestConfig) (memoryMB : Rat) (warmStart : TestExecutionResult)
        (coldStart : Option TestExecutionResult),
      (costEntry config memoryMB warmStart coldStart).costPer1MInvocations =
        memoryMB / 1024 * (warmStart.average / 1000) *
          config.lambdaPricePerGbSecond * config.costCalculationScale ∧
      (∀ cs, coldStart = some cs → 0 < cs.average →
        (costEntry config memoryMB warmStart coldStart).coldStartCostPer1M =
          memoryMB / 1024 * (cs.average / 1000) *
            config.lambdaPricePerGbSecond * config.costCalculationScale ∧
        (costEntry config memoryMB warmStart coldStart).blendedCostPer1M =
          (costEntry config memoryMB warmStart coldStart).coldStartCostPer1M *
              config.defaultColdStartPercentage +
            (costEntry config memoryMB warmStart coldStart).costPer1MInvocations *
              (1 - config.defaultColdStartPercentage)) ∧
      ((coldStart = none ∨ ∃ cs, coldStart = some cs ∧ ¬ 0 < cs.average) →
        (costEntry config memoryMB warmStart coldStart).coldStartCostPer1M = 0 ∧
        (costEntry config memoryMB warmStart coldStart).blendedCostPer1M =
          (costEntry config memoryMB warmStart coldStart).costPer1MInvocations)) ∧
    (∀ (config : TestConfig) (results : List FunctionTestResult) (out : CostAnalyzerOutput),
      analyzeCostEfficiency config results = Except.ok (some out) →
      ∀ r ∈ results, ∀ w, r.warmStart = some w →
        costEntry config r.memoryMB w r.coldStart ∈ out.allConfigurations) ∧
    (costEntry ⟨166667 / 10000000000, 1000000, 1 / 10⟩ 128
        ⟨5, 10, 10, 10⟩ none).costPer1MInvocations = 166667 / 8000000 := by
  refine ⟨fun config memoryMB warmStart coldStart => ⟨rfl, ?_, ?_⟩, ?_,
    by norm_num [costEntry]⟩
  · rintro cs rfl hpos
    simp only [costEntry, if_pos hpos]
    exact ⟨trivial, trivial⟩
  · rintro (rfl | ⟨cs, rfl, hneg⟩)
    · exact ⟨rfl, rfl⟩
    · simp only [costEntry, if_neg hneg]
      exact ⟨trivial, trivial⟩
  · intro config results out h r hr w hw
    obtain ⟨hall, -, -⟩ := analyzeCostEfficiency_ok_some h
    rw [hall]
    exact mem_sortByMemoryMB.mpr
      (List.mem_filterMap.mpr ⟨r, hr, by rw [hw]; rfl⟩)

/-- Claim C1 counterexample: at the stated scenario (128 MB, warm 10 ms, price
0.0000166667, scale 1000000) the warm cost per million is exactly
166667/8000000 = 0.020833375, which is not within 0.0001 of the claimed
approximation 0.02035. -/
theorem claim_C1_counterexample :
    (costEntry ⟨166667 / 10000000000, 1000000, 1 / 10⟩ 128
        ⟨5, 10, 10, 10⟩ none).costPer1MInvocations = 166667 / 8000000 ∧
    ¬ |(costEntry ⟨166667 / 10000000000, 1000000, 1 / 10⟩ 128
        ⟨5, 10, 10, 10⟩ none).costPer1MInvocations - 2035 / 100000| < 1 / 10000 := by
  constructor
  · norm_num [costEntry]
  · norm_num [costEntry, abs]

/-- Claim C1 witness: the cold branch formulas and the row membership at a
concrete input. -/
theorem claim_C1_witness :
    ((0 : Rat) < (80 : Rat) ∧
      (costEntry ⟨1, 1000000, 0⟩ 128 ⟨5, 200, 200, 200⟩
          (some ⟨5, 80, 80, 80⟩)).coldStartCostPer1M =
        128 / 1024 * (80 / 1000) * 1 * 1000000 ∧
      (costEntry ⟨1, 1000000, 0⟩ 128 ⟨5, 200, 200, 200⟩
          (some ⟨5, 80, 80, 80⟩)).blendedCostPer1M =
        (costEntry ⟨1, 1000000, 0⟩ 128 ⟨5, 200, 200, 200⟩
            (some ⟨5, 80, 80, 80⟩)).coldStartCostPer1M * 0 +
          (costEntry ⟨1, 1000000, 0⟩ 128 ⟨5, 200, 200, 200⟩
              (some ⟨5, 80, 80, 80⟩)).costPer1MInvocations * (1 - 0)) ∧
    (analyzeCostEfficiency ⟨1, 1, 0⟩ [⟨128, none, some ⟨1, 1000, 1000, 1000⟩⟩] =
        Except.ok (some ⟨⟨128, 1000, none, 1 / 8, 0, 1 / 8, 8⟩,
          ⟨128, 1000, none, 1 / 8, 0, 1 / 8, 8⟩,
          [⟨128, 1000, none, 1 / 8, 0, 1 / 8, 8⟩]⟩) ∧
      costEntry ⟨1, 1, 0⟩ 128 ⟨1, 1000, 1000, 1000⟩ none ∈
        [(⟨128, 1000, none, 1 / 8, 0, 1 / 8, 8⟩ : CostAnalysisConfig)]) :=
  ⟨⟨by norm_num,
    (claim_C1_cost_formulas.1 ⟨1, 1000000, 0⟩ 128 ⟨5, 200, 200, 200⟩
        (some ⟨5, 80, 80, 80⟩)).2.1 ⟨5, 80, 80, 80⟩ rfl (by norm_num)⟩,
   ⟨by norm_num [analyzeCostEfficiency, costEntry, sortByMemoryMB, reduce1, pickMaxBy, pickMinBy],
    claim_C1_cost_formulas.2.1 ⟨1, 1, 0⟩ [⟨128, none, some ⟨1, 1000, 1000, 1000⟩⟩]
      ⟨⟨128, 1000, none, 1 / 8, 0, 1 / 8, 8⟩, ⟨128, 1000, none, 1 / 8, 0, 1 / 8, 8⟩,
        [⟨128, 1000, none, 1 / 8, 0, 1 / 8, 8⟩]⟩
      (by norm_num [analyzeCostEfficiency, costEntry, sortByMemoryMB, reduce1, pickMaxBy,
        pickMinBy])
      ⟨128, none, some ⟨1, 1000, 1000, 1000⟩⟩ (List.mem_singleton.mpr rfl)
      ⟨1, 1000, 1000, 1000⟩ rfl⟩⟩

/-- Claim C2 (code bug): on a non-empty tier list in which no tier has warm
stats, `findOptimalMemoryConfig` does not return null: the row list handed to
`reduce` inside `analyzeCostEfficiency` is empty and `reduce` with no initial
value throws a TypeError, which propagates out. -/
theorem claim_C2_throws_on_no_warm_stats :
    findOptimalMemoryConfig ⟨166667 / 10000000000, 1000000, 1 / 10⟩
        [⟨128, none, none⟩] = Except.error jsReduceEmptyError ∧
    analyzeCostEfficiency ⟨166667 / 10000000000, 1000000, 1 / 10⟩
        [⟨128, none, none⟩] = Except.error jsReduceEmptyError := by
  constructor
  · norm_num [findOptimalMemoryConfig, analyzeCostEfficiency, sortByMemoryMB, reduce1]
  · norm_num [analyzeCostEfficiency, sortByMemoryMB, reduce1]

/-- Claim C5 counterexample: the division `scale / blendedCostPer1M` at line
114 of the cost analyzer is not guarded.  For a tier with warm average 0 the
blended cost is 0 and the score is non-finite (Infinity in the source),
refuting the claim that an undefined or infinite score is never produced. -/
theorem claim_C5_counterexample :
    costEfficiencyScoreJs ⟨166667 / 10000000000, 1000000, 1 / 10⟩ 128
        ⟨5, 0, 0, 0⟩ none = none ∧
    (costEntry ⟨166667 / 10000000000, 1000000, 1 / 10⟩ 128
        ⟨5, 0, 0, 0⟩ none).blendedCostPer1M = 0 := by
  constructor
  · norm_num [costEfficiencyScoreJs, jsDivFinite, costEntry]
  · norm_num [costEntry]

/-- Claim C5 (amended): the code computes `costEfficiencyScore = scale /
blendedCostPer1M` unconditionally, with no guard; a tier with warm average 0
yields a non-finite score.  However, for every tier with positive memory size,
warm average, price and scale, and a cold-start fraction between 0 and 1, the
blended cost is strictly positive and the score is the finite number
`scale / blendedCostPer1M`. -/
theorem claim_C5_unguarded_division_amended (config : TestConfig) (memoryMB : Rat)
    (warmStart : TestExecutionResult) (coldStart : Option TestExecutionResult)
    (hp : 0 < config.lambdaPricePerGbSecond) (hs : 0 < config.costCalculationScale)
    (hm : 0 < memoryMB) (hw : 0 < warmStart.average)
    (hf0 : 0 ≤ config.defaultColdStartPercentage)
    (hf1 : config.defaultColdStartPercentage ≤ 1) :
    0 < (costEntry config memoryMB warmStart coldStart).blendedCostPer1M ∧
    costEfficiencyScoreJs config memoryMB warmStart coldStart =
      some (config.costCalculationScale /
        (costEntry config memoryMB warmStart coldStart).blendedCostPer1M) := by
  have hwc : 0 < memoryMB / 1024 * (warmStart.average / 1000) *
      config.lambdaPricePerGbSecond * config.costCalculationScale := by positivity
  have hpos : 0 < (costEntry config memoryMB warmStart coldStart).blendedCostPer1M := by
    rcases coldStart with _ | cs
    · exact hwc
    · by_cases hc : 0 < cs.average
      · have hcc : 0 < memoryMB / 1024 * (cs.average / 1000) *
            config.lambdaPricePerGbSecond * config.costCalculationScale := by positivity
        simp only [costEntry, if_pos hc]
        rcases le_total (memoryMB / 1024 * (cs.average / 1000) *
            config.lambdaPricePerGbSecond * config.costCalculationScale)
            (memoryMB / 1024 * (warmStart.average / 1000) *
              config.lambdaPricePerGbSecond * config.costCalculationScale) with hcw | hcw
        · nlinarith [mul_le_mul_of_nonneg_right hcw (sub_nonneg.mpr hf1)]
        · nlinarith [mul_le_mul_of_nonneg_right hcw hf0]
      · simp only [costEntry, if_neg hc]
        exact hwc
  refine ⟨hpos, ?_⟩
  unfold costEfficiencyScoreJs jsDivFinite
  rw [if_neg (ne_of_gt hpos)]

/-- Claim C5 witness: a concrete tier with positive inputs has a positive
blended cost and a finite score. -/
theorem claim_C5_witness :
    ((0 : Rat) < 1 ∧ (0 : Rat) < 1 ∧ (0 : Rat) < 128 ∧ (0 : Rat) < 10 ∧
      (0 : Rat) ≤ 1 / 2 ∧ (1 / 2 : Rat) ≤ 1) ∧
    0 < (costEntry ⟨1, 1, 1 / 2⟩ 128 ⟨1, 10, 10, 10⟩
        (some ⟨1, 5, 5, 5⟩)).blendedCostPer1M ∧
    costEfficiencyScoreJs ⟨1, 1, 1 / 2⟩ 128 ⟨1, 10, 10, 10⟩ (some ⟨1, 5, 5, 5⟩) =
      some (1 / (costEntry ⟨1, 1, 1 / 2⟩ 128 ⟨1, 10, 10, 10⟩
        (some ⟨1, 5, 5, 5⟩)).blendedCostPer1M) :=
  ⟨⟨by norm_num, by norm_num, by norm_num, by norm_num, by norm_num, by norm_num⟩,
    claim_C5_unguarded_division_amended ⟨1, 1, 1 / 2⟩ 128 ⟨1, 10, 10, 10⟩
      (some ⟨1, 5, 5, 5⟩) (by norm_num) (by norm_num) (by norm_num) (by norm_num)
      (by norm_num) (by norm_num)⟩

/-- Claim C10: whenever `analyzeCostEfficiency` returns a non-null output, the
configuration list is non-empty and sorted ascending by memory size, and the
`mostCostEfficient` and `leastCostEfficient` fields are elements of the list
attaining respectively the maximum and minimum cost efficiency score. -/
theorem claim_C10_output_invariants (config : TestConfig)
    (results : List FunctionTestResult) (out : CostAnalyzerOutput)
    (h : analyzeCostEfficiency config results = Except.ok (some out)) :
    out.allConfigurations ≠ [] ∧
    List.Sorted (fun a b : CostAnalysisConfig => a.memoryMB ≤ b.memoryMB)
      out.allConfigurations ∧
    out.mostCostEfficient ∈ out.allConfigurations ∧
    (∀ c ∈ out.allConfigurations,
      c.costEfficiencyScore ≤ out.mostCostEfficient.costEfficiencyScore) ∧
    out.leastCostEfficient ∈ out.allConfigurations ∧
    (∀ c ∈ out.allConfigurations,
      out.leastCostEfficient.costEfficiencyScore ≤ c.costEfficiencyScore) := by
  obtain ⟨hall, hmost, hleast⟩ := analyzeCostEfficiency_ok_some h
  have hmax := reduce1_max_spec _ _ _ hmost
  have hmin := reduce1_min_spec _ _ _ hleast
  refine ⟨?_, ?_, hmax.1, hmax.2, hmin.1, hmin.2⟩
  · intro hnil
    rw [hnil] at hmost
    simp [reduce1] at hmost
  · rw [hall]
    exact sortByMemoryMB_sorted _

/-- Claim C10 witness: a two-tier input given in descending memory order is
returned sorted ascending, with the extremal rows identified. -/
theorem claim_C10_witness :
    analyzeCostEfficiency ⟨1, 1, 0⟩
        [⟨256, none, some ⟨1, 1000, 1000, 1000⟩⟩, ⟨128, none, some ⟨1, 1000, 1000, 1000⟩⟩] =
      Except.ok (some ⟨⟨128, 1000, none, 1 / 8, 0, 1 / 8, 8⟩,
        ⟨256, 1000, none, 1 / 4, 0, 1 / 4, 4⟩,
        [⟨128, 1000, none, 1 / 8, 0, 1 / 8, 8⟩, ⟨256, 1000, none, 1 / 4, 0, 1 / 4, 4⟩]⟩) ∧
    ([⟨128, 1000, none, 1 / 8, 0, 1 / 8, 8⟩,
        (⟨256, 1000, none, 1 / 4, 0, 1 / 4, 4⟩ : CostAnalysisConfig)] ≠ [] ∧
      List.Sorted (fun a b : CostAnalysisConfig => a.memoryMB ≤ b.memoryMB)
        [⟨128, 1000, none, 1 / 8, 0, 1 / 8, 8⟩, ⟨256, 1000, none, 1 / 4, 0, 1 / 4, 4⟩] ∧
      (⟨128, 1000, none, 1 / 8, 0, 1 / 8, 8⟩ : CostAnalysisConfig) ∈
        [⟨128, 1000, none, 1 / 8, 0, 1 / 8, 8⟩, ⟨256, 1000, none, 1 / 4, 0, 1 / 4, 4⟩] ∧
      (∀ c ∈ [⟨128, 1000, none, 1 / 8, 0, 1 / 8, 8⟩,
          (⟨256, 1000, none, 1 / 4, 0, 1 / 4, 4⟩ : CostAnalysisConfig)],
        c.costEfficiencyScore ≤
          (⟨128, 1000, none, 1 / 8, 0, 1 / 8, 8⟩ : CostAnalysisConfig).costEfficiencyScore) ∧
      (⟨256, 1000, none, 1 / 4, 0, 1 / 4, 4⟩ : CostAnalysisConfig) ∈
        [⟨128, 1000, none, 1 / 8, 0, 1 / 8, 8⟩, ⟨256, 1000, none, 1 / 4, 0, 1 / 4, 4⟩] ∧
      (∀ c ∈ [⟨128, 1000, none, 1 / 8, 0, 1 / 8, 8⟩,
          (⟨256, 1000, none, 1 / 4, 0, 1 / 4, 4⟩ : CostAnalysisConfig)],
        (⟨256, 1000, none, 1 / 4, 0, 1 / 4, 4⟩ : CostAnalysisConfig).costEfficiencyScore ≤
          c.costEfficiencyScore)) :=
  have hA : analyzeCostEfficiency ⟨1, 1, 0⟩
      [⟨256, none, some ⟨1, 1000, 1000, 1000⟩⟩, ⟨128, none, some ⟨1, 1000, 1000, 1000⟩⟩] =
      Except.ok (some ⟨⟨128, 1000, none, 1 / 8, 0, 1 / 8, 8⟩,
        ⟨256, 1000, none, 1 / 4, 0, 1 / 4, 4⟩,
        [⟨128, 1000, none, 1 / 8, 0, 1 / 8, 8⟩, ⟨256, 1000, none, 1 / 4, 0, 1 / 4, 4⟩]⟩) := by
    norm_num [analyzeCostEfficiency, costEntry, sortByMemoryMB, reduce1, pickMaxBy, pickMinBy]
  ⟨hA, claim_C10_output_invariants ⟨1, 1, 0⟩
    [⟨256, none, some ⟨1, 1000, 1000, 1000⟩⟩, ⟨128, none, some ⟨1, 1000, 1000, 1000⟩⟩]
    ⟨⟨128, 1000, none, 1 / 8, 0, 1 / 8, 8⟩, ⟨256, 1000, none, 1 / 4, 0, 1 / 4, 4⟩,
      [⟨128, 1000, none, 1 / 8, 0, 1 / 8, 8⟩, ⟨256, 1000, none, 1 / 4, 0, 1 / 4, 4⟩]⟩ hA⟩

theorem foldl_selectStep_keep (allC : List CostAnalysisConfig) :
    ∀ (l : List FunctionTestResult) (acc : Option OptimalMemoryConfig × Rat),
      (∀ r ∈ l, ∀ c s, eligScore allC r = some (c, s) → s ≤ acc.2) →
      l.foldl (selectStep allC) acc = acc := by
  intro l
  induction l with
  | nil => intro acc _; rfl
  | cons r rs ih =>
    intro acc hle
    have hstep : selectStep allC acc r = acc := by
      unfold selectStep
      rcases he : eligScore allC r with _ | ⟨c, s⟩
      · rfl
      · have := hle r (List.mem_cons_self _ _) c s he
        simp [not_lt.mpr this]
    rw [List.foldl_cons, hstep]
    exact ih acc fun r' hr' => hle r' (List.mem_cons_of_mem _ hr')

theorem foldl_selectStep_lt (allC : List CostAnalysisConfig) (t : Rat) :
    ∀ (l : List FunctionTestResult) (acc : Option OptimalMemoryConfig × Rat),
      acc.2 < t →
      (∀ r ∈ l, ∀ c s, eligScore allC r = some (c, s) → s < t) →
      (l.foldl (selectStep allC) acc).2 < t := by
  intro l
  induction l with
  | nil => intro acc hacc _; exact hacc
  | cons r rs ih =>
    intro acc hacc hlt
    rw [List.foldl_cons]
    refine ih (selectStep allC acc r) ?_ fun r' hr' => hlt r' (List.mem_cons_of_mem _ hr')
    unfold selectStep
    rcases he : eligScore allC r with _ | ⟨c, s⟩
    · exact hacc
    · have hs := hlt r (List.mem_cons_self _ _) c s he
      dsimp only
      split
      · exact hs
      · exact hacc

theorem findOptimalMemoryConfig_spec {config : TestConfig}
    {results : List FunctionTestResult} {analysis : CostAnalyzerOutput}
    (hne : results ≠ [])
    (hA : analyzeCostEfficiency config results = Except.ok (some analysis)) :
    findOptimalMemoryConfig config results =
      Except.ok (results.foldl (selectStep analysis.allConfigurations) (none, 0)).1 := by
  unfold findOptimalMemoryConfig
  rw [if_neg (by simpa using hne), hA]

/-- Claim C7: `findOptimalMemoryConfig` is deterministic (same input, same
selected tier), and on an exact total-score tie the tier encountered first in
the input ordering wins, because the comparison is strict: whenever two
eligible tiers both attain the positive score t, every tier before the first
of them scores strictly below t, and every tier after it scores at most t,
the first one is selected. -/
theorem claim_C7_deterministic_first_tie_wins (config : TestConfig)
    (l1 : List FunctionTestResult) (r1 : FunctionTestResult)
    (l2 : List FunctionTestResult) (r2 : FunctionTestResult)
    (l3 : List FunctionTestResult) (analysis : CostAnalyzerOutput)
    (c1 c2 : OptimalMemoryConfig) (t : Rat)
    (hA : analyzeCostEfficiency config (l1 ++ r1 :: l2 ++ r2 :: l3) =
      Except.ok (some analysis))
    (h1 : eligScore analysis.allConfigurations r1 = some (c1, t))
    (h2 : eligScore analysis.allConfigurations r2 = some (c2, t))
    (ht : 0 < t)
    (hbefore : ∀ r ∈ l1, ∀ c s, eligScore analysis.allConfigurations r = some (c, s) → s < t)
    (hafter : ∀ r ∈ l2 ++ l3, ∀ c s,
      eligScore analysis.allConfigurations r = some (c, s) → s ≤ t) :
    findOptimalMemoryConfig config (l1 ++ r1 :: l2 ++ r2 :: l3) = Except.ok (some c1) ∧
    findOptimalMemoryConfig config (l1 ++ r1 :: l2 ++ r2 :: l3) =
      findOptimalMemoryConfig config (l1 ++ r1 :: l2 ++ r2 :: l3) := by
  refine ⟨?_, rfl⟩
  rw [findOptimalMemoryConfig_spec (by simp) hA]
  have hfold1 : (l1.foldl (selectStep analysis.allConfigurations)
      ((none : Option OptimalMemoryConfig), (0 : Rat))).2 < t :=
    foldl_selectStep_lt _ t l1 (none, 0) ht hbefore
  have hstep1 : ∀ acc : Option OptimalMemoryConfig × Rat, acc.2 < t →
      selectStep analysis.allConfigurations acc r1 = (some c1, t) := by
    intro acc hacc
    unfold selectStep
    rw [h1]
    exact if_pos hacc
  have hstep2 : selectStep analysis.allConfigurations (some c1, t) r2 = (some c1, t) := by
    unfold selectStep
    rw [h2]
    exact if_neg (lt_irrefl t)
  have hl2 : l2.foldl (selectStep analysis.allConfigurations) (some c1, t) = (some c1, t) :=
    foldl_selectStep_keep _ l2 (some c1, t) fun r hr c s he =>
      hafter r (List.mem_append.mpr (Or.inl hr)) c s he
  have hl3 : l3.foldl (selectStep analysis.allConfigurations) (some c1, t) = (some c1, t) :=
    foldl_selectStep_keep _ l3 (some c1, t) fun r hr c s he =>
      hafter r (List.mem_append.mpr (Or.inr hr)) c s he
  rw [List.foldl_append, List.foldl_append, List.foldl_cons, List.foldl_cons,
    hstep1 _ hfold1, hl2, hstep2, hl3]

/-- Claim C7 witness: two distinct tiers with exactly equal positive total
scores; the first one in the input ordering is selected. -/
theorem claim_C7_witness :
    analyzeCostEfficiency ⟨1, 1000000, 0⟩
        [⟨128, some ⟨5, 80, 80, 80⟩, some ⟨5, 200, 200, 200⟩⟩,
         ⟨256, none, some ⟨5, 100, 100, 100⟩⟩] =
      Except.ok (some ⟨⟨128, 200, some 80, 25000, 10000, 25000, 40⟩,
        ⟨128, 200, some 80, 25000, 10000, 25000, 40⟩,
        [⟨128, 200, some 80, 25000, 10000, 25000, 40⟩,
         ⟨256, 100, none, 25000, 0, 25000, 40⟩]⟩) ∧
    eligScore [⟨128, 200, some 80, 25000, 10000, 25000, 40⟩,
        ⟨256, 100, none, 25000, 0, 25000, 40⟩]
      ⟨128, some ⟨5, 80, 80, 80⟩, some ⟨5, 200, 200, 200⟩⟩ =
      some (⟨128, 200, some 80, 25000, "Balanced performance and cost efficiency"⟩,
        12503 / 2500) ∧
    eligScore [⟨128, 200, some 80, 25000, 10000, 25000, 40⟩,
        ⟨256, 100, none, 25000, 0, 25000, 40⟩]
      ⟨256, none, some ⟨5, 100, 100, 100⟩⟩ =
      some (⟨256, 100, none, 25000, "Balanced performance and cost efficiency"⟩,
        12503 / 2500) ∧
    (0 : Rat) < 12503 / 2500 ∧
    findOptimalMemoryConfig ⟨1, 1000000, 0⟩
        [⟨128, some ⟨5, 80, 80, 80⟩, some ⟨5, 200, 200, 200⟩⟩,
         ⟨256, none, some ⟨5, 100, 100, 100⟩⟩] =
      Except.ok (some ⟨128, 200, some 80, 25000,
        "Balanced performance and cost efficiency"⟩) := by
  have hA : analyzeCostEfficiency ⟨1, 1000000, 0⟩
      [⟨128, some ⟨5, 80, 80, 80⟩, some ⟨5, 200, 200, 200⟩⟩,
       ⟨256, none, some ⟨5, 100, 100, 100⟩⟩] =
      Except.ok (some ⟨⟨128, 200, some 80, 25000, 10000, 25000, 40⟩,
        ⟨128, 200, some 80, 25000, 10000, 25000, 40⟩,
        [⟨128, 200, some 80, 25000, 10000, 25000, 40⟩,
         ⟨256, 100, none, 25000, 0, 25000, 40⟩]⟩) := by
    norm_num [analyzeCostEfficiency, costEntry, sortByMemoryMB, reduce1, pickMaxBy, pickMinBy]
  have h1 : eligScore [(⟨128, 200, some 80, 25000, 10000, 25000, 40⟩ : CostAnalysisConfig),
      ⟨256, 100, none, 25000, 0, 25000, 40⟩]
      ⟨128, some ⟨5, 80, 80, 80⟩, some ⟨5, 200, 200, 200⟩⟩ =
      some (⟨128, 200, some 80, 25000, "Balanced performance and cost efficiency"⟩,
        12503 / 2500) := by
    have hb : ((128 : Rat) == (128 : Rat)) = true := rfl
    norm_num [eligScore, List.find?, hb]
  have h2 : eligScore [(⟨128, 200, some 80, 25000, 10000, 25000, 40⟩ : CostAnalysisConfig),
      ⟨256, 100, none, 25000, 0, 25000, 40⟩]
      ⟨256, none, some ⟨5, 100, 100, 100⟩⟩ =
      some (⟨256, 100, none, 25000, "Balanced performance and cost efficiency"⟩,
        12503 / 2500) := by
    have hb1 : ((128 : Rat) == (256 : Rat)) = false := rfl
    have hb2 : ((256 : Rat) == (256 : Rat)) = true := rfl
    norm_num [eligScore, List.find?, hb1, hb2]
  have ht : (0 : Rat) < 12503 / 2500 := by norm_num
  refine ⟨hA, h1, h2, ht, ?_⟩
  have := (claim_C7_deterministic_first_tie_wins ⟨1, 1000000, 0⟩ []
    ⟨128, some ⟨5, 80, 80, 80⟩, some ⟨5, 200, 200, 200⟩⟩ []
    ⟨256, none, some ⟨5, 100, 100, 100⟩⟩ []
    ⟨⟨128, 200, some 80, 25000, 10000, 25000, 40⟩,
      ⟨128, 200, some 80, 25000, 10000, 25000, 40⟩,
      [⟨128, 200, some 80, 25000, 10000, 25000, 40⟩,
       ⟨256, 100, none, 25000, 0, 25000, 40⟩]⟩
    ⟨128, 200, some 80, 25000, "Balanced performance and cost efficiency"⟩
    ⟨256, 100, none, 25000, "Balanced performance and cost efficiency"⟩
    (12503 / 2500) hA h1 h2 ht (by simp) (by simp)).1
  exact this

/-- Claim C8: with a non-empty configuration list, `addFunctionInsights` emits
the performance-vs-cost trade-off insight exactly when the first tier attaining
the globally lowest average execution time differs in memory size from the
baseline (first) tier, with delta `(baselineAvg - fastestAvg)/baselineAvg*100`,
and emits the savings insight exactly when the most cost efficient tier differs
from the baseline and `(baselineBlended - mostEfficientBlended)/baselineBlended
* 100` is strictly positive; the fastest tier indeed attains the global minimum
of the average execution times. -/
theorem claim_C8_insight_conditions (insights : List Insight)
    (mce lce baseline : CostAnalysisConfig) (rest : List CostAnalysisConfig)
    (functionType : String) :
    addFunctionInsights insights ⟨mce, lce, baseline :: rest⟩ functionType = some
      ((insights ++
        (if (fastestConfig baseline rest).memoryMB ≠ baseline.memoryMB then
          [Insight.perfTradeoff functionType (fastestConfig baseline rest).memoryMB
            baseline.memoryMB
            ((baseline.avgExecutionTime - (fastestConfig baseline rest).avgExecutionTime) /
              baseline.avgExecutionTime * 100)
            (((fastestConfig baseline rest).blendedCostPer1M - baseline.blendedCostPer1M) /
              baseline.blendedCostPer1M * 100)]
        else [])) ++
        (if mce.memoryMB ≠ baseline.memoryMB ∧
            0 < (baseline.blendedCostPer1M - mce.blendedCostPer1M) /
              baseline.blendedCostPer1M * 100 then
          [Insight.costSaving functionType mce.memoryMB
            ((baseline.blendedCostPer1M - mce.blendedCostPer1M) /
              baseline.blendedCostPer1M * 100)]
        else [])) ∧
    ∀ c ∈ baseline :: rest,
      (fastestConfig baseline rest).avgExecutionTime ≤ c.avgExecutionTime := by
  constructor
  · by_cases h1 : (fastestConfig baseline rest).memoryMB = baseline.memoryMB <;>
      by_cases h2 : mce.memoryMB = baseline.memoryMB <;>
      by_cases h3 : (0 : Rat) < (baseline.blendedCostPer1M - mce.blendedCostPer1M) /
        baseline.blendedCostPer1M * 100 <;>
      simp [addFunctionInsights, h1, h2, h3]
  · intro c hc
    have := foldl_lb (pickMinBy (fun x : CostAnalysisConfig => x.avgExecutionTime))
      (fun x : CostAnalysisConfig => x.avgExecutionTime)
      (pickMinBy_lb (fun x : CostAnalysisConfig => x.avgExecutionTime)) rest baseline c hc
    simpa [fastestConfig] using this

/-- Claim C8 witness: both insights emitted at a concrete two-tier analysis in
which the 256 MB tier is both fastest and most cost efficient. -/
theorem claim_C8_witness :
    addFunctionInsights [] ⟨⟨256, 50, none, 2, 0, 8, 2⟩, ⟨128, 100, none, 1, 0, 10, 1⟩,
        [⟨128, 100, none, 1, 0, 10, 1⟩, ⟨256, 50, none, 2, 0, 8, 2⟩]⟩ "basic" =
      some [Insight.perfTradeoff "basic" 256 128 50 (-20), Insight.costSaving "basic" 256 20] ∧
    ∀ c ∈ [(⟨128, 100, none, 1, 0, 10, 1⟩ : CostAnalysisConfig), ⟨256, 50, none, 2, 0, 8, 2⟩],
      (fastestConfig ⟨128, 100, none, 1, 0, 10, 1⟩
        [⟨256, 50, none, 2, 0, 8, 2⟩]).avgExecutionTime ≤ c.avgExecutionTime := by
  have h := claim_C8_insight_conditions [] ⟨256, 50, none, 2, 0, 8, 2⟩
    ⟨128, 100, none, 1, 0, 10, 1⟩ ⟨128, 100, none, 1, 0, 10, 1⟩
    [⟨256, 50, none, 2, 0, 8, 2⟩] "basic"
  refine ⟨h.1.trans ?_, h.2⟩
  norm_num [fastestConfig, pickMinBy]

/-- Claim C9: `determineBestUseCase` does not throw when the comparator rows
include one with a null cold start time (its result is defined for every such
input), and a tier matching none of the three global optima is labelled by the
position of its rank in the row list: strictly below a third of the list length
gives the budget label, strictly above two thirds gives the performance label,
and otherwise the balanced label. -/
theorem claim_C9_use_case_classifier :
    (∀ (config c : CostAnalysisConfig) (ca : CostAnalyzerOutput),
      c ∈ ca.allConfigurations → c.coldStartTime = none →
      (determineBestUseCase config ca).isSome = true) ∧
    (∀ (config : CostAnalysisConfig) (ca : CostAnalyzerOutput)
        (warmOptimal perfOptimal : CostAnalysisConfig),
      reduce1 (pickMinBy (fun x => x.costPer1MInvocations)) ca.allConfigurations =
        some warmOptimal →
      reduce1 (pickMinBy (fun x => x.avgExecutionTime)) ca.allConfigurations =
        some perfOptimal →
      config.memoryMB ≠ warmOptimal.memoryMB →
      config.memoryMB ≠ perfOptimal.memoryMB →
      config.memoryMB ≠ ca.mostCostEfficient.memoryMB →
      determineBestUseCase config ca = some (
        if (costRankOf ca.allConfigurations config : Rat) <
            (ca.allConfigurations.length : Rat) / 3 then ("Budget focused")
        else if (costRankOf ca.allConfigurations config : Rat) >
            (ca.allConfigurations.length : Rat) * 2 / 3 then ("Performance focused")
        else ("Balanced workload"))) := by
  constructor
  · intro config c ca hc hcold
    rcases h : ca.allConfigurations with _ | ⟨a, rest⟩
    · rw [h] at hc
      simp at hc
    · simp only [determineBestUseCase, h, reduce1]
      repeat' split
      all_goals rfl
  · intro config ca warmOptimal perfOptimal hw hp h3 h4 h5
    simp only [determineBestUseCase, hw, hp]
    rw [if_neg h3, if_neg h4, if_neg h5]
    split_ifs <;> rfl

/-- Claim C9 witness: a four-row analysis in which the 512 MB tier matches no
global optimum and sits in the middle third (rank 2 of 4), yielding the
balanced label; a row with null cold start time is present and the classifier
still returns a label. -/
theorem claim_C9_witness :
    ((⟨256, 90, none, 2, 0, 9, 6⟩ : CostAnalysisConfig) ∈
      (⟨⟨256, 90, none, 2, 0, 9, 6⟩, ⟨128, 100, some 50, 1, 0, 10, 5⟩,
        [⟨128, 100, some 50, 1, 0, 10, 5⟩, ⟨256, 90, none, 2, 0, 9, 6⟩,
         ⟨512, 80, some 40, 3, 0, 8, 7⟩, ⟨1024, 70, some 30, 4, 0, 7, 8⟩]⟩ :
        CostAnalyzerOutput).allConfigurations ∧
      (⟨256, 90, none, 2, 0, 9, 6⟩ : CostAnalysisConfig).coldStartTime = none ∧
      (determineBestUseCase ⟨128, 100, some 50, 1, 0, 10, 5⟩
        ⟨⟨256, 90, none, 2, 0, 9, 6⟩, ⟨128, 100, some 50, 1, 0, 10, 5⟩,
          [⟨128, 100, some 50, 1, 0, 10, 5⟩, ⟨256, 90, none, 2, 0, 9, 6⟩,
           ⟨512, 80, some 40, 3, 0, 8, 7⟩, ⟨1024, 70, some 30, 4, 0, 7, 8⟩]⟩).isSome = true) ∧
    determineBestUseCase ⟨512, 80, some 40, 3, 0, 8, 7⟩
      ⟨⟨256, 90, none, 2, 0, 9, 6⟩, ⟨128, 100, some 50, 1, 0, 10, 5⟩,
        [⟨128, 100, some 50, 1, 0, 10, 5⟩, ⟨256, 90, none, 2, 0, 9, 6⟩,
         ⟨512, 80, some 40, 3, 0, 8, 7⟩, ⟨1024, 70, some 30, 4, 0, 7, 8⟩]⟩ =
      some ("Balanced workload") := by
  have hmem : (⟨256, 90, none, 2, 0, 9, 6⟩ : CostAnalysisConfig) ∈
      [(⟨128, 100, some 50, 1, 0, 10, 5⟩ : CostAnalysisConfig), ⟨256, 90, none, 2, 0, 9, 6⟩,
       ⟨512, 80, some 40, 3, 0, 8, 7⟩, ⟨1024, 70, some 30, 4, 0, 7, 8⟩] := by
    simp
  have hw : reduce1 (pickMinBy (fun x => x.costPer1MInvocations))
      [(⟨128, 100, some 50, 1, 0, 10, 5⟩ : CostAnalysisConfig), ⟨256, 90, none, 2, 0, 9, 6⟩,
       ⟨512, 80, some 40, 3, 0, 8, 7⟩, ⟨1024, 70, some 30, 4, 0, 7, 8⟩] =
      some ⟨128, 100, some 50, 1, 0, 10, 5⟩ := by
    norm_num [reduce1, pickMinBy]
  have hp : reduce1 (pickMinBy (fun x => x.avgExecutionTime))
      [(⟨128, 100, some 50, 1, 0, 10, 5⟩ : CostAnalysisConfig), ⟨256, 90, none, 2, 0, 9, 6⟩,
       ⟨512, 80, some 40, 3, 0, 8, 7⟩, ⟨1024, 70, some 30, 4, 0, 7, 8⟩] =
      some ⟨1024, 70, some 30, 4, 0, 7, 8⟩ := by
    norm_num [reduce1, pickMinBy]
  refine ⟨⟨hmem, rfl, claim_C9_use_case_classifier.1 ⟨128, 100, some 50, 1, 0, 10, 5⟩
    ⟨256, 90, none, 2, 0, 9, 6⟩ _ hmem rfl⟩, ?_⟩
  have h := claim_C9_use_case_classifier.2 ⟨512, 80, some 40, 3, 0, 8, 7⟩
    ⟨⟨256, 90, none, 2, 0, 9, 6⟩, ⟨128, 100, some 50, 1, 0, 10, 5⟩,
      [⟨128, 100, some 50, 1, 0, 10, 5⟩, ⟨256, 90, none, 2, 0, 9, 6⟩,
       ⟨512, 80, some 40, 3, 0, 8, 7⟩, ⟨1024, 70, some 30, 4, 0, 7, 8⟩]⟩
    ⟨128, 100, some 50, 1, 0, 10, 5⟩ ⟨1024, 70, some 30, 4, 0, 7, 8⟩ hw hp
    (by norm_num) (by norm_num) (by norm_num)
  refine h.trans ?_
  have hb1 : ((128 : Rat) == (512 : Rat)) = false := rfl
  have hb2 : ((256 : Rat) == (512 : Rat)) = false := rfl
  have hb3 : ((512 : Rat) == (512 : Rat)) = true := rfl
  norm_num [costRankOf, List.findIdx?, hb1, hb2, hb3]

theorem processResponse_bounds (cfg : LambdaTestConfig)
    (acc : List TestRequestResult × List TestRequestResult)
    (response : LambdaFunctionResponse)
    (hc : acc.1.length ≤ cfg.targetColdStarts) (hw : acc.2.length ≤ cfg.targetWarmStarts) :
    (processResponse cfg acc response).1.length ≤ cfg.targetColdStarts ∧
    (processResponse cfg acc response).2.length ≤ cfg.targetWarmStarts := by
  rcases response with ⟨_ | p, _ | e⟩
  · exact ⟨hc, hw⟩
  · exact ⟨hc, hw⟩
  · exact ⟨hc, hw⟩
  · simp only [processResponse]
    split
    · rename_i h
      refine ⟨?_, hw⟩
      simpa using h.2
    · split
      · rename_i h
        refine ⟨hc, ?_⟩
        simpa using h.2
      · exact ⟨hc, hw⟩

theorem foldl_processResponse_bounds (cfg : LambdaTestConfig)
    (responses : List LambdaFunctionResponse) :
    ∀ acc : List TestRequestResult × List TestRequestResult,
      acc.1.length ≤ cfg.targetColdStarts → acc.2.length ≤ cfg.targetWarmStarts →
      (responses.foldl (processResponse cfg) acc).1.length ≤ cfg.targetColdStarts ∧
      (responses.foldl (processResponse cfg) acc).2.length ≤ cfg.targetWarmStarts := by
  induction responses with
  | nil => exact fun acc hc hw => ⟨hc, hw⟩
  | cons r rs ih =>
    intro acc hc hw
    rw [List.foldl_cons]
    have h := processResponse_bounds cfg acc r hc hw
    exact ih _ h.1 h.2

theorem batchStep_bounds (cfg : LambdaTestConfig) (responses : List LambdaFunctionResponse)
    (s : CollectState)
    (hc : s.coldStartResults.length ≤ cfg.targetColdStarts)
    (hw : s.warmStartResults.length ≤ cfg.targetWarmStarts) :
    (batchStep cfg responses s).coldStartResults.length ≤ cfg.targetColdStarts ∧
    (batchStep cfg responses s).warmStartResults.length ≤ cfg.targetWarmStarts :=
  foldl_processResponse_bounds cfg responses (s.coldStartResults, s.warmStartResults) hc hw

theorem collectLoop_bounds (cfg : LambdaTestConfig)
    (batches : Nat → List LambdaFunctionResponse) :
    ∀ (fuel batchNumber : Nat) (s out : CollectState),
      collectLoop cfg batches fuel batchNumber s = some out →
      s.coldStartResults.length ≤ cfg.targetColdStarts →
      s.warmStartResults.length ≤ cfg.targetWarmStarts →
      out.coldStartResults.length ≤ cfg.targetColdStarts ∧
      out.warmStartResults.length ≤ cfg.targetWarmStarts := by
  intro fuel
  induction fuel with
  | zero =>
    intro batchNumber s out h
    simp [collectLoop] at h
  | succ n ih =>
    intro batchNumber s out h hc hw
    rw [collectLoop] at h
    split at h
    · have hb := batchStep_bounds cfg (batches batchNumber) s hc hw
      split at h
      · simp only [Option.some.injEq] at h
        subst h
        exact hb
      · split at h
        · simp only [Option.some.injEq] at h
          subst h
          exact hb
        · exact ih _ _ _ h hb.1 hb.2
    · simp only [Option.some.injEq] at h
      subst h
      exact ⟨hc, hw⟩

theorem collectLoop_exit (cfg : LambdaTestConfig)
    (batches : Nat → List LambdaFunctionResponse) :
    ∀ (fuel batchNumber : Nat) (s out : CollectState),
      collectLoop cfg batches fuel batchNumber s = some out →
      (cfg.targetColdStarts ≤ out.coldStartResults.length ∧
        cfg.targetWarmStarts ≤ out.warmStartResults.length) ∨
      cfg.maxRequests < out.totalRequestsAttempted := by
  intro fuel
  induction fuel with
  | zero =>
    intro batchNumber s out h
    simp [collectLoop] at h
  | succ n ih =>
    intro batchNumber s out h
    rw [collectLoop] at h
    split at h
    · split at h
      · rename_i hmet
        simp only [Option.some.injEq] at h
        subst h
        exact Or.inl hmet
      · split at h
        · rename_i hceil
          simp only [Option.some.injEq] at h
          subst h
          exact Or.inr hceil
        · exact ih _ _ _ h
    · rename_i hcond
      push_neg at hcond
      simp only [Option.some.injEq] at h
      subst h
      exact Or.inl hcond

theorem collectLoop_dvd (cfg : LambdaTestConfig)
    (batches : Nat → List LambdaFunctionResponse) :
    ∀ (fuel batchNumber : Nat) (s out : CollectState),
      collectLoop cfg batches fuel batchNumber s = some out →
      cfg.maxConcurrentRequests ∣ s.totalRequestsAttempted →
      cfg.maxConcurrentRequests ∣ out.totalRequestsAttempted := by
  intro fuel
  induction fuel with
  | zero =>
    intro batchNumber s out h
    simp [collectLoop] at h
  | succ n ih =>
    intro batchNumber s out h hdvd
    have hdvd' : cfg.maxConcurrentRequests ∣
        (batchStep cfg (batches batchNumber) s).totalRequestsAttempted :=
      Dvd.dvd.add hdvd (dvd_refl _)
    rw [collectLoop] at h
    split at h
    · split at h
      · simp only [Option.some.injEq] at h
        subst h
        exact hdvd'
      · split at h
        · simp only [Option.some.injEq] at h
          subst h
          exact hdvd'
        · exact ih _ _ _ h hdvd'
    · simp only [Option.some.injEq] at h
      subst h
      exact hdvd

theorem collectLoop_isSome (cfg : LambdaTestConfig)
    (batches : Nat → List LambdaFunctionResponse) :
    ∀ (fuel batchNumber : Nat) (s : CollectState),
      s.totalRequestsAttempted ≤ cfg.maxRequests →
      cfg.maxRequests < s.totalRequestsAttempted + fuel * cfg.maxConcurrentRequests →
      (collectLoop cfg batches fuel batchNumber s).isSome = true := by
  intro fuel
  induction fuel with
  | zero =>
    intro batchNumber s hle hlt
    simp only [Nat.zero_mul, Nat.add_zero] at hlt
    omega
  | succ n ih =>
    intro batchNumber s hle hlt
    rw [collectLoop]
    split
    · split
      · rfl
      · split
        · rfl
        · rename_i hnotceil
          refine ih _ _ (Nat.le_of_not_lt hnotceil) ?_
          have hb : (batchStep cfg (batches batchNumber) s).totalRequestsAttempted =
              s.totalRequestsAttempted + cfg.maxConcurrentRequests := rfl
          rw [hb, Nat.succ_mul] at *
          omega
    · rfl

/-- Claim C3: collection never overshoots the targets.  Appending one response
preserves the bounds `#cold ≤ targetColdStarts` and `#warm ≤ targetWarmStarts`;
a valid response whose class already reached its target leaves both sample
lists unchanged (it is only logged as discarded); and any state the loop
returns satisfies the bounds whenever the initial state does. -/
theorem claim_C3_targets_never_overshoot (cfg : LambdaTestConfig) :
    (∀ (cold warm : List TestRequestResult) (response : LambdaFunctionResponse),
      cold.length ≤ cfg.targetColdStarts → warm.length ≤ cfg.targetWarmStarts →
      (processResponse cfg (cold, warm) response).1.length ≤ cfg.targetColdStarts ∧
      (processResponse cfg (cold, warm) response).2.length ≤ cfg.targetWarmStarts) ∧
    (∀ (cold warm : List TestRequestResult) (p : PerformanceData)
        (e : ExecutionEnvironmentData),
      e.coldStart = true → cfg.targetColdStarts ≤ cold.length →
      processResponse cfg (cold, warm) ⟨some p, some e⟩ = (cold, warm)) ∧
    (∀ (cold warm : List TestRequestResult) (p : PerformanceData)
        (e : ExecutionEnvironmentData),
      e.coldStart = false → cfg.targetWarmStarts ≤ warm.length →
      processResponse cfg (cold, warm) ⟨some p, some e⟩ = (cold, warm)) ∧
    (∀ (batches : Nat → List LambdaFunctionResponse) (fuel batchNumber : Nat)
        (s out : CollectState),
      collectLoop cfg batches fuel batchNumber s = some out →
      s.coldStartResults.length ≤ cfg.targetColdStarts →
      s.warmStartResults.length ≤ cfg.targetWarmStarts →
      out.coldStartResults.length ≤ cfg.targetColdStarts ∧
      out.warmStartResults.length ≤ cfg.targetWarmStarts) := by
  refine ⟨fun cold warm response hc hw => processResponse_bounds cfg _ response hc hw,
    ?_, ?_, fun batches fuel batchNumber s out h hc hw =>
      collectLoop_bounds cfg batches fuel batchNumber s out h hc hw⟩
  · intro cold warm p e he hfull
    simp [processResponse, he, Nat.not_lt.mpr hfull]
  · intro cold warm p e he hfull
    simp [processResponse, he, Nat.not_lt.mpr hfull]

/-- Claim C3 witness: with targetColdStarts 1 already met, a fresh valid cold
response is discarded and the cold count stays 1; bounds are preserved through
a concrete loop run. -/
theorem claim_C3_witness :
    ((⟨true, 128, "e1"⟩ : ExecutionEnvironmentData).coldStart = true ∧
      (1 : Nat) ≤ [(⟨50, 128, "r1", true⟩ : TestRequestResult)].length ∧
      processResponse ⟨1, 1, 2, 4⟩ ([⟨50, 128, "r1", true⟩], []) ⟨some ⟨60⟩, some ⟨true, 128, "e1"⟩⟩ =
        ([⟨50, 128, "r1", true⟩], []) ∧
      collectLoop ⟨1, 1, 2, 4⟩
          (fun _ => [⟨some ⟨50⟩, some ⟨true, 128, "a"⟩⟩, ⟨some ⟨20⟩, some ⟨false, 128, "b"⟩⟩])
          5 1 ⟨[], [], 0⟩ =
        some ⟨[⟨50, 128, "a", true⟩], [⟨20, 128, "b", false⟩], 2⟩) ∧
    ([(⟨50, 128, "a", true⟩ : TestRequestResult)].length ≤ 1 ∧
      [(⟨20, 128, "b", false⟩ : TestRequestResult)].length ≤ 1) := by
  have hrun : collectLoop ⟨1, 1, 2, 4⟩
      (fun _ => [⟨some ⟨50⟩, some ⟨true, 128, "a"⟩⟩, ⟨some ⟨20⟩, some ⟨false, 128, "b"⟩⟩])
      5 1 ⟨[], [], 0⟩ =
      some ⟨[⟨50, 128, "a", true⟩], [⟨20, 128, "b", false⟩], 2⟩ := by
    rfl
  refine ⟨⟨rfl, le_refl 1,
    (claim_C3_targets_never_overshoot ⟨1, 1, 2, 4⟩).2.1 [⟨50, 128, "r1", true⟩] [] ⟨60⟩
      ⟨true, 128, "e1"⟩ rfl (le_refl 1), hrun⟩, ?_⟩
  exact (claim_C3_targets_never_overshoot ⟨1, 1, 2, 4⟩).2.2.2
    (fun _ => [⟨some ⟨50⟩, some ⟨true, 128, "a"⟩⟩, ⟨some ⟨20⟩, some ⟨false, 128, "b"⟩⟩])
    5 1 ⟨[], [], 0⟩ ⟨[⟨50, 128, "a", true⟩], [⟨20, 128, "b", false⟩], 2⟩ hrun
    (by simp) (by simp)

/-- Claim C6: for every tier config with `maxConcurrentRequests ≥ 1` and every
network behaviour, the collection loop terminates within the fuel
`maxRequests + 1`, exits only with both targets reached or with the attempt
counter strictly above `maxRequests` (returning whatever was collected), the
counter is a multiple of `maxConcurrentRequests` (it grows by exactly that
amount per batch, whether or not responses were usable), and `testFunction`
returns a result. -/
theorem claim_C6_termination_two_exits (cfg : LambdaTestConfig)
    (batches : Nat → List LambdaFunctionResponse)
    (hmc : 1 ≤ cfg.maxConcurrentRequests) :
    (∃ out, collectLoop cfg batches (cfg.maxRequests + 1) 1 ⟨[], [], 0⟩ = some out ∧
      ((cfg.targetColdStarts ≤ out.coldStartResults.length ∧
        cfg.targetWarmStarts ≤ out.warmStartResults.length) ∨
        cfg.maxRequests < out.totalRequestsAttempted) ∧
      cfg.maxConcurrentRequests ∣ out.totalRequestsAttempted) ∧
    ∀ memoryMB : Rat, (testFunction memoryMB cfg batches).isSome = true := by
  have hmul : cfg.maxRequests + 1 ≤ (cfg.maxRequests + 1) * cfg.maxConcurrentRequests := by
    have := Nat.mul_le_mul_left (cfg.maxRequests + 1) hmc
    omega
  have hsome := collectLoop_isSome cfg batches (cfg.maxRequests + 1) 1 ⟨[], [], 0⟩
    (Nat.zero_le _) (by omega)
  obtain ⟨out, hout⟩ := Option.isSome_iff_exists.mp hsome
  refine ⟨⟨out, hout, collectLoop_exit cfg batches _ _ _ _ hout,
    collectLoop_dvd cfg batches _ _ _ _ hout (dvd_zero _)⟩, ?_⟩
  intro memoryMB
  unfold testFunction
  rw [hout]
  rfl

/-- Claim C6 witness: a concrete run with maxConcurrentRequests 1 terminates
with both targets met and a counter that is a multiple of 1. -/
theorem claim_C6_witness :
    (1 : Nat) ≤ (1 : Nat) ∧
    ((∃ out, collectLoop ⟨1, 1, 1, 3⟩
        (fun batchNumber => if batchNumber = 1 then [⟨some ⟨50⟩, some ⟨true, 128, "a"⟩⟩]
          else [⟨some ⟨20⟩, some ⟨false, 128, "b"⟩⟩]) 4 1 ⟨[], [], 0⟩ = some out ∧
      ((1 ≤ out.coldStartResults.length ∧ 1 ≤ out.warmStartResults.length) ∨
        3 < out.totalRequestsAttempted) ∧
      1 ∣ out.totalRequestsAttempted) ∧
    ∀ memoryMB : Rat, (testFunction memoryMB ⟨1, 1, 1, 3⟩
      (fun batchNumber => if batchNumber = 1 then [⟨some ⟨50⟩, some ⟨true, 128, "a"⟩⟩]
        else [⟨some ⟨20⟩, some ⟨false, 128, "b"⟩⟩])).isSome = true) :=
  ⟨le_refl 1, claim_C6_termination_two_exits ⟨1, 1, 1, 3⟩
    (fun batchNumber => if batchNumber = 1 then [⟨some ⟨50⟩, some ⟨true, 128, "a"⟩⟩]
      else [⟨some ⟨20⟩, some ⟨false, 128, "b"⟩⟩]) (le_refl 1)⟩

theorem foldl_add_duration (l : List TestRequestResult) :
    ∀ a : Rat, l.foldl (fun sum r => sum + r.duration) a =
      a + (l.map TestRequestResult.duration).sum := by
  induction l with
  | nil => intro a; simp
  | cons r rs ih =>
    intro a
    rw [List.foldl_cons, ih, List.map_cons, List.sum_cons]
    ring

/-- Claim C4: the stats reduction at the end of collection yields null exactly
for an empty sample list, and for n ≥ 1 stored samples it yields count n,
average equal to the sum of the durations divided by n, and min and max equal
to the minimum and maximum of the durations; the returned tier result carries
exactly these reductions of the two stored lists. -/
theorem claim_C4_stats_reduction :
    (∀ samples : List TestRequestResult, computeStats samples = none ↔ samples = []) ∧
    (∀ (samples : List TestRequestResult) (st : TestExecutionResult),
      computeStats samples = some st →
      st.count = samples.length ∧
      st.average = (samples.map TestRequestResult.duration).sum / (samples.length : Rat) ∧
      st.min ∈ samples.map TestRequestResult.duration ∧
      (∀ d ∈ samples.map TestRequestResult.duration, st.min ≤ d) ∧
      st.max ∈ samples.map TestRequestResult.duration ∧
      (∀ d ∈ samples.map TestRequestResult.duration, d ≤ st.max)) ∧
    (∀ (memoryMB : Rat) (cfg : LambdaTestConfig)
        (batches : Nat → List LambdaFunctionResponse) (r : FunctionTestResult),
      testFunction memoryMB cfg batches = some r →
      ∃ s : CollectState,
        collectLoop cfg batches (cfg.maxRequests + 1) 1 ⟨[], [], 0⟩ = some s ∧
        r = ⟨memoryMB, computeStats s.coldStartResults, computeStats s.warmStartResults⟩) := by
  refine ⟨?_, ?_, ?_⟩
  · intro samples
    rcases samples with _ | ⟨x, xs⟩ <;> simp [computeStats]
  · intro samples st h
    have hne : samples ≠ [] := by
      intro hnil
      subst hnil
      simp [computeStats] at h
    have hlen : samples.length > 0 := List.length_pos.mpr hne
    rw [computeStats, if_pos hlen] at h
    simp only [Option.some.injEq] at h
    subst h
    have hmapne : samples.map TestRequestResult.duration ≠ [] := by
      simpa using hne
    have hmin := jsMinList_spec (samples.map TestRequestResult.duration) hmapne
    have hmax := jsMaxList_spec (samples.map TestRequestResult.duration) hmapne
    refine ⟨rfl, ?_, hmin.1, hmin.2, hmax.1, hmax.2⟩
    show samples.foldl (fun sum r => sum + r.duration) 0 / (samples.length : Rat) = _
    rw [foldl_add_duration, zero_add]
  · intro memoryMB cfg batches r h
    unfold testFunction at h
    obtain ⟨s, hs, hf⟩ := Option.map_eq_some'.mp h
    exact ⟨s, hs, hf.symm⟩

/-- Claim C4 witness: stats of a concrete two-sample list (count 2, average
40, min 30, max 50) and of a concrete collection run. -/
theorem claim_C4_witness :
    (computeStats [] = none ↔ ([] : List TestRequestResult) = []) ∧
    (computeStats [⟨50, 128, "a", true⟩, ⟨30, 128, "b", true⟩] = some ⟨2, 40, 30, 50⟩ ∧
      (2 : Nat) = [(⟨50, 128, "a", true⟩ : TestRequestResult), ⟨30, 128, "b", true⟩].length ∧
      (40 : Rat) = ([(⟨50, 128, "a", true⟩ : TestRequestResult),
        ⟨30, 128, "b", true⟩].map TestRequestResult.duration).sum / 2 ∧
      (30 : Rat) ∈ [(⟨50, 128, "a", true⟩ : TestRequestResult),
        ⟨30, 128, "b", true⟩].map TestRequestResult.duration ∧
      (50 : Rat) ∈ [(⟨50, 128, "a", true⟩ : TestRequestResult),
        ⟨30, 128, "b", true⟩].map TestRequestResult.duration) ∧
    (testFunction 128 ⟨1, 1, 2, 4⟩
        (fun _ => [⟨some ⟨50⟩, some ⟨true, 128, "a"⟩⟩, ⟨some ⟨20⟩, some ⟨false, 128, "b"⟩⟩]) =
      some ⟨128, computeStats [⟨50, 128, "a", true⟩], computeStats [⟨20, 128, "b", false⟩]⟩ ∧
      ∃ s : CollectState,
        collectLoop ⟨1, 1, 2, 4⟩
          (fun _ => [⟨some ⟨50⟩, some ⟨true, 128, "a"⟩⟩, ⟨some ⟨20⟩, some ⟨false, 128, "b"⟩⟩])
          5 1 ⟨[], [], 0⟩ = some s ∧
        (⟨128, computeStats [⟨50, 128, "a", true⟩], computeStats [⟨20, 128, "b", false⟩]⟩ :
          FunctionTestResult) =
          ⟨128, computeStats s.coldStartResults, computeStats s.warmStartResults⟩) := by
  have hstats : computeStats [⟨50, 128, "a", true⟩, ⟨30, 128, "b", true⟩] =
      some ⟨2, 40, 30, 50⟩ := by
    norm_num [computeStats, jsMinList, jsMaxList]
  have hspec := claim_C4_stats_reduction.2.1 [⟨50, 128, "a", true⟩, ⟨30, 128, "b", true⟩]
    ⟨2, 40, 30, 50⟩ hstats
  have hrun : testFunction 128 ⟨1, 1, 2, 4⟩
      (fun _ => [⟨some ⟨50⟩, some ⟨true, 128, "a"⟩⟩, ⟨some ⟨20⟩, some ⟨false, 128, "b"⟩⟩]) =
      some ⟨128, computeStats [⟨50, 128, "a", true⟩], computeStats [⟨20, 128, "b", false⟩]⟩ := by
    rfl
  exact ⟨claim_C4_stats_reduction.1 [], ⟨hstats, hspec.1, hspec.2.1, hspec.2.2.1,
    hspec.2.2.2.2.1⟩, hrun, claim_C4_stats_reduction.2.2 128 ⟨1, 1, 2, 4⟩
      (fun _ => [⟨some ⟨50⟩, some ⟨true, 128, "a"⟩⟩, ⟨some ⟨20⟩, some ⟨false, 128, "b"⟩⟩])
      ⟨128, computeStats [⟨50, 128, "a", true⟩], computeStats [⟨20, 128, "b", false⟩]⟩ hrun⟩

end LambdaBench
